/-
Verification of the analyte-resolution / pathway-graph pipeline of this
repository (src/main.py) against its natural-language specification.

The pipeline (main.py) is shallowly embedded below:
  * `map_common_name_to_hmdb` (main.py lines 15-28): the remote CSV fetch is
    modelled by an explicit `fetch` oracle (`none` = network failure or
    non-200; `some table` = the parsed Name -> HMDB table).
  * `resolve` (the identifier-resolution branch of the "Query Pathways"
    button handler, main.py lines 100-111).
  * `query_ramp_api` (main.py lines 31-44): the HTTP exchange is modelled by
    an oracle `http : Option (Nat × Json)` (`none` = the request raised;
    `some (status, body)` = a response arrived).  JSON values are modelled
    only as precisely as the handler inspects them: an array of pathway
    entries, or any other JSON value (`Json.other`, which also stands for
    the literal `{}` the code returns on failure).
  * `generate_network_graph` (main.py lines 47-54) over an explicit graph
    structure with networkx semantics: nodes keyed by id (re-adding a node
    updates its attributes), undirected edges deduplicated in both
    orientations, self-loops allowed.
  * `save_results_pdf` text construction (main.py lines 74-84).
  * `handle` : the "Query Pathways" button handler (main.py lines 98-138),
    returning the user-observable outcome.

The spec Enrichment Scorer has no counterpart anywhere in src/; it is
modelled from the spec wording (see `round4` / `scoreOne`).
-/
import Mathlib

set_option autoImplicit false
set_option linter.unusedVariables false

namespace MultiOmic

/-- The analyte type selected in the UI (main.py line 96). -/
inductive AnalyteType where
  | protein
  | metabolite
deriving DecidableEq, Repr

/-- Provenance of a resolved identifier (spec §3, AnalyteIdentifier.source). -/
inductive Source where
  | UserProvided
  | NameMapped
deriving DecidableEq, Repr

/-- The resolver failure (spec §7): the common name could not be mapped. -/
inductive ResolveError where
  | UnresolvedIdentifier
deriving DecidableEq, Repr

instance {ε α : Type} [DecidableEq ε] [DecidableEq α] : DecidableEq (Except ε α) :=
  fun x y =>
    match x, y with
    | .ok a, .ok b =>
        if h : a = b then isTrue (by rw [h])
        else isFalse (fun hab => h (Except.ok.inj hab))
    | .error a, .error b =>
        if h : a = b then isTrue (by rw [h])
        else isFalse (fun hab => h (Except.error.inj hab))
    | .ok _, .error _ => isFalse (fun hab => Except.noConfusion hab)
    | .error _, .ok _ => isFalse (fun hab => Except.noConfusion hab)

/-- A resolved analyte identifier (spec §3, AnalyteIdentifier). -/
structure Resolved where
  canonical_id : String
  source : Source
deriving DecidableEq, Repr

/-- One entry of the RaMP JSON response, as far as the code inspects it:
an optional `name` field and an optional `source` field
(main.py lines 51 and 81 read the name and source fields with defaults). -/
structure PathwayJson where
  name : Option String
  source : Option String
deriving DecidableEq, Repr

/-- A JSON value, modelled only as precisely as the handler inspects it
(main.py line 114 checks `isinstance(result, list)`): an array of pathway
entries, or any other JSON value (object, string, number, ...).  The empty
dict `{}` that `query_ramp_api` returns on failure is `Json.other`. -/
inductive Json where
  | arr (entries : List PathwayJson)
  | other
deriving DecidableEq, Repr

/-- The name field of an entry, defaulted to "Unknown" (main.py lines 51, 81). -/
def recordName (pw : PathwayJson) : String :=
  pw.name.getD "Unknown"

/-- The source field of an entry, defaulted to "N/A" (main.py line 81). -/
def sourceName (pw : PathwayJson) : String :=
  pw.source.getD "N/A"

/-- Python str.lower() on the inputs this pipeline sees (ASCII
identifiers and compound names): each character lowercased. -/
def pyLower (s : String) : String :=
  String.mk (s.data.map Char.toLower)

/-- Python s.startswith(p): p begins s. -/
def pyStartsWith (s p : String) : Bool :=
  List.isPrefixOf p.data s.data

/-- `map_common_name_to_hmdb` (main.py lines 15-28).  The CSV download is the
oracle `fetch`: `none` models a network failure, an exception or a non-200
status (the code prints and returns `None`); `some table` models the parsed
CSV as (Name, HMDB) rows.  The lookup is the first row whose Name matches
case-insensitively (main.py line 23). -/
def map_common_name_to_hmdb (fetch : Option (List (String × String)))
    (common_name : String) : Option String :=
  match fetch with
  | none => none
  | some table =>
      (table.find? (fun row => pyLower row.1 == pyLower common_name)).map (·.2)

/-- The identifier-resolution branch of the button handler
(main.py lines 100-111): a metabolite input not beginning with "hmdb"
(case-insensitively) goes through the name mapping and the pipeline stops on
failure; every other input — every protein input included — is passed through
unchanged.  `if mapped_id:` on line 103 is Python truthiness, so an empty
mapped string also counts as failure. -/
def resolve (input : String) (kind : AnalyteType)
    (fetch : Option (List (String × String))) : Except ResolveError Resolved :=
  if kind == .metabolite && !(pyStartsWith (pyLower input) "hmdb") then
    match map_common_name_to_hmdb fetch input with
    | some mapped =>
        if mapped == "" then .error .UnresolvedIdentifier
        else .ok ⟨mapped, .NameMapped⟩
    | none => .error .UnresolvedIdentifier
  else
    .ok ⟨input, .UserProvided⟩

/-- The type-prefixed identifier sent to RaMP (main.py lines 32-33). -/
def query_full_id (analyte_id : String) (t : AnalyteType) : String :=
  (if t == .metabolite then "hmdb" else "uniprot") ++ ":" ++ analyte_id

/-- `query_ramp_api` (main.py lines 31-44).  The HTTP exchange is the oracle
`http`: `none` models a raised exception, `some (status, body)` a response.
On status 200 the parsed body is returned; on any other status, and on an
exception, the code falls through to `return {}` — an empty dict, i.e. a JSON
value that is not a list, here `Json.other`.  No retry, no second endpoint. -/
def query_ramp_api (analyte_id : String) (t : AnalyteType)
    (http : Option (Nat × Json)) : Json :=
  match http with
  | some (status, body) => if status == 200 then body else Json.other
  | none => Json.other

/-- Whether the modelled HTTP exchange counts as a success for
`query_ramp_api`: a response arrived and its status is 200. -/
def httpOk (http : Option (Nat × Json)) : Bool :=
  match http with
  | some (status, _) => status == 200
  | none => false

/-- A graph with networkx `nx.Graph` semantics, as far as
`generate_network_graph` exercises them: `nodes` is keyed by id in insertion
order, each node carrying its `color` attribute; `edges` is a list of
undirected edges without duplicates (in either orientation). -/
structure Graph where
  nodes : List (String × String)
  edges : List (String × String)
deriving DecidableEq, Repr

/-- `g.add_node(id, color=c)`: re-adding an existing node updates its
attributes in place; a new node is appended. -/
def add_node (g : Graph) (id c : String) : Graph :=
  if id ∈ g.nodes.map Prod.fst then
    { g with nodes := g.nodes.map (fun p => if p.1 = id then (p.1, c) else p) }
  else
    { g with nodes := g.nodes ++ [(id, c)] }

/-- `g.add_edge(u, v)` on an undirected graph: adding an edge already present
(in either orientation) is a no-op; otherwise the edge is appended.
Self-loops are allowed. -/
def add_edge (g : Graph) (u v : String) : Graph :=
  if (u, v) ∈ g.edges ∨ (v, u) ∈ g.edges then g
  else { g with edges := g.edges ++ [(u, v)] }

/-- The `for pw in pathways` loop of `generate_network_graph`
(main.py lines 50-53). -/
def build_loop (a : String) (g : Graph) : List PathwayJson → Graph
  | [] => g
  | pw :: rest =>
      build_loop a (add_edge (add_node g (recordName pw) "blue") a (recordName pw)) rest

/-- `generate_network_graph` (main.py lines 47-54): one red analyte node,
then for each entry a blue node keyed by its (defaulted) name and an edge
from the analyte to it. -/
def generate_network_graph (analyte_id : String) (pathways : List PathwayJson) : Graph :=
  build_loop analyte_id (add_node ⟨[], []⟩ analyte_id "red") pathways

/-- The ids of the nodes of a graph. -/
def nodeIds (g : Graph) : List String :=
  g.nodes.map Prod.fst

/-- One text line of the PDF body (main.py line 81): a dash, the defaulted
name, then the defaulted source in parentheses; the trailing newline is kept
out of this definition. -/
def pdfLine (pw : PathwayJson) : String :=
  "- " ++ recordName pw ++ " (Source: " ++ sourceName pw ++ ")"

/-- The text `save_results_pdf` inserts into the page (main.py lines 79-81),
built exactly as the code builds it: starting from the header, one `text +=`
per entry. -/
def save_results_pdf_text (pathways : List PathwayJson) : String :=
  pathways.foldl
    (fun text pw =>
      text ++ ("- " ++ recordName pw ++ " (Source: " ++ sourceName pw ++ ")\n"))
    "Pathway Results:\n\n"

/-- The user-observable outcome of one press of the "Query Pathways" button
(main.py lines 98-138).  Only the success branch builds a graph and export
artifacts; they are carried in the `success` constructor. -/
inductive Outcome where
  | emptyInput
  | mappingFailed
  | success (analyte_id : String) (rows : List PathwayJson)
      (graph : Graph) (pdf : String)
  | noPathways
deriving DecidableEq, Repr

/-- Whether an outcome is the success branch (graph rendered, files offered). -/
def proceeds : Outcome → Bool
  | .success _ _ _ _ => true
  | _ => false

/-- The "Query Pathways" button handler (main.py lines 98-138).  An empty
input is refused (line 99, Python truthiness); resolution failure stops the
run (lines 108-109); the query result leads to the success branch exactly
when it is a list of length > 0 (line 114), else the "No pathways found"
empty state (line 136). -/
def handle (input : String) (kind : AnalyteType)
    (fetch : Option (List (String × String)))
    (http : Option (Nat × Json)) : Outcome :=
  if input = "" then .emptyInput
  else
    match resolve input kind fetch with
    | .error _ => .mappingFailed
    | .ok r =>
        match query_ramp_api r.canonical_id kind http with
        | Json.arr (x :: xs) =>
            .success r.canonical_id (x :: xs)
              (generate_network_graph r.canonical_id (x :: xs))
              (save_results_pdf_text (x :: xs))
        | _ => .noPathways

/-- The sequence of defaulted names, one per raw response entry — the shape
in which the consumers of the response (main.py lines 50-51 and 80-81) read
the records. -/
def pathwayNames (pws : List PathwayJson) : List String :=
  pws.map recordName

/-- Modelled from the spec: spec §3 PathwayRecord — the Enrichment Scorer and
its PathwayRecord input exist nowhere in src/ (no scoring code is present),
so they are modelled from the spec wording. -/
structure PathwayRecord where
  name : String
  source_database : String
  associated_analytes : List String
deriving DecidableEq, Repr

/-- Modelled from the spec: rounding "to 4 decimal digits" (spec §4.3),
realised as scaling by 10^4, rounding half-up, and scaling back. -/
def round4 (q : ℚ) : ℚ :=
  (⌊q * 10000 + 1 / 2⌋ : ℚ) / 10000

/-- Modelled from the spec: the Enrichment Scorer formula of spec §4.3,
`score = 1 / (1 + |associated_analytes|)`, rounded to 4 decimal digits.
No scorer exists in src/. -/
def scoreOne (r : PathwayRecord) : ℚ :=
  round4 (1 / (1 + (r.associated_analytes.length : ℚ)))

/-- Modelled from the spec: the sequence form of the scorer contract
(spec §4.5): order-preserving, one EnrichedPathway per input record. -/
def score (records : List PathwayRecord) : List (PathwayRecord × ℚ) :=
  records.map (fun r => (r, scoreOne r))

/-- The AnalytePathwayGraph invariant of spec §3, read off the concrete graph:
exactly one Analyte node (the code marks the analyte red, pathways blue), and
every edge joins the analyte to a distinct Pathway (blue) node — hence no
edge joins two Pathway nodes. -/
def graphInvariant (g : Graph) (a : String) : Prop :=
  (∃ p ∈ g.nodes, p.2 = "red" ∧ p.1 = a ∧ ∀ q ∈ g.nodes, q.2 = "red" → q = p) ∧
  (∀ e ∈ g.edges, e.1 = a ∧ e.2 ≠ a ∧ (e.2, "blue") ∈ g.nodes)

instance (g : Graph) (a : String) : Decidable (graphInvariant g a) := by
  unfold graphInvariant
  infer_instance

theorem add_node_edges (g : Graph) (id c : String) :
    (add_node g id c).edges = g.edges := by
  unfold add_node; split <;> rfl

theorem add_edge_nodes (g : Graph) (u v : String) :
    (add_edge g u v).nodes = g.nodes := by
  unfold add_edge; split <;> rfl

theorem mem_nodeIds_add_node (g : Graph) (id c x : String) :
    x ∈ nodeIds (add_node g id c) ↔ x = id ∨ x ∈ nodeIds g := by
  unfold add_node nodeIds
  split
  · next h =>
    have hmap : (g.nodes.map (fun p => if p.1 = id then (p.1, c) else p)).map Prod.fst
        = g.nodes.map Prod.fst := by
      rw [List.map_map]
      apply List.map_congr_left
      intro p _
      by_cases hp : p.1 = id <;> simp [hp]
    rw [hmap]
    constructor
    · exact Or.inr
    · rintro (rfl | hx)
      · exact h
      · exact hx
  · next h =>
    simp only [List.map_append, List.map_cons, List.map_nil, List.mem_append,
      List.mem_singleton]
    tauto

theorem nodup_nodeIds_add_node (g : Graph) (id c : String)
    (h : (nodeIds g).Nodup) : (nodeIds (add_node g id c)).Nodup := by
  unfold add_node nodeIds
  split
  · next hmem =>
    have hmap : (g.nodes.map (fun p => if p.1 = id then (p.1, c) else p)).map Prod.fst
        = g.nodes.map Prod.fst := by
      rw [List.map_map]
      apply List.map_congr_left
      intro p _
      by_cases hp : p.1 = id <;> simp [hp]
    rw [hmap]; exact h
  · next hmem =>
    simp only [List.map_append, List.map_cons, List.map_nil]
    rw [List.nodup_append]
    refine ⟨h, List.nodup_singleton id, ?_⟩
    intro x hx hx'
    simp only [List.mem_singleton] at hx'
    exact hmem (hx' ▸ hx)

theorem mem_edges_add_edge (g : Graph) (u v : String) (e : String × String)
    (he : e ∈ (add_edge g u v).edges) : e ∈ g.edges ∨ e = (u, v) := by
  unfold add_edge at he
  split at he
  · exact Or.inl he
  · simp only [List.mem_append, List.mem_singleton] at he
    exact he

theorem edges_sub_add_edge (g : Graph) (u v : String) (e : String × String)
    (he : e ∈ g.edges) : e ∈ (add_edge g u v).edges := by
  unfold add_edge
  split
  · exact he
  · exact List.mem_append_left _ he

theorem self_mem_edges_add_edge (g : Graph) (u v : String)
    (hfst : ∀ e ∈ g.edges, e.1 = u) : (u, v) ∈ (add_edge g u v).edges := by
  unfold add_edge
  split
  · next h =>
    rcases h with h | h
    · exact h
    · have := hfst _ h
      simp only at this
      subst this
      exact h
  · exact List.mem_append_right _ (List.mem_singleton.mpr rfl)

theorem nodup_edges_add_edge (g : Graph) (u v : String)
    (h : g.edges.Nodup) : (add_edge g u v).edges.Nodup := by
  unfold add_edge
  split
  · next hc => exact h
  · next hc =>
    rw [List.nodup_append]
    refine ⟨h, List.nodup_singleton _, ?_⟩
    intro e he he'
    simp only [List.mem_singleton] at he'
    exact hc (Or.inl (he' ▸ he))

theorem mem_nodeIds_build_loop (pws : List PathwayJson) (a : String) (g : Graph)
    (x : String) :
    x ∈ nodeIds (build_loop a g pws) ↔ x ∈ nodeIds g ∨ x ∈ pws.map recordName := by
  induction pws generalizing g with
  | nil => simp [build_loop]
  | cons pw t ih =>
    rw [build_loop, ih]
    have hnodes : nodeIds (add_edge (add_node g (recordName pw) "blue") a (recordName pw))
        = nodeIds (add_node g (recordName pw) "blue") := by
      unfold nodeIds; rw [add_edge_nodes]
    rw [hnodes, mem_nodeIds_add_node]
    simp only [List.map_cons, List.mem_cons]
    tauto

theorem nodup_nodeIds_build_loop (pws : List PathwayJson) (a : String) (g : Graph)
    (h : (nodeIds g).Nodup) : (nodeIds (build_loop a g pws)).Nodup := by
  induction pws generalizing g with
  | nil => exact h
  | cons pw t ih =>
    rw [build_loop]
    apply ih
    have hnodes : nodeIds (add_edge (add_node g (recordName pw) "blue") a (recordName pw))
        = nodeIds (add_node g (recordName pw) "blue") := by
      unfold nodeIds; rw [add_edge_nodes]
    rw [hnodes]
    exact nodup_nodeIds_add_node _ _ _ h

theorem edges_build_loop_fst (pws : List PathwayJson) (a : String) (g : Graph)
    (hfst : ∀ e ∈ g.edges, e.1 = a) :
    ∀ e ∈ (build_loop a g pws).edges, e.1 = a := by
  induction pws generalizing g with
  | nil => exact hfst
  | cons pw t ih =>
    rw [build_loop]
    apply ih
    intro e he
    rcases mem_edges_add_edge _ _ _ _ he with h | h
    · rw [add_node_edges] at h
      exact hfst _ h
    · rw [h]

theorem edges_build_loop_sub (pws : List PathwayJson) (a : String) (g : Graph)
    (e : String × String) (he : e ∈ g.edges) : e ∈ (build_loop a g pws).edges := by
  induction pws generalizing g with
  | nil => exact he
  | cons pw t ih =>
    rw [build_loop]
    apply ih
    apply edges_sub_add_edge
    rw [add_node_edges]
    exact he

theorem mem_edges_build_loop (pws : List PathwayJson) (a : String) (g : Graph)
    (e : String × String) (he : e ∈ (build_loop a g pws).edges) :
    e ∈ g.edges ∨ ∃ n ∈ pws.map recordName, e = (a, n) := by
  induction pws generalizing g with
  | nil => exact Or.inl he
  | cons pw t ih =>
    rw [build_loop] at he
    rcases ih _ he with h | ⟨n, hn, rfl⟩
    · rcases mem_edges_add_edge _ _ _ _ h with h' | h'
      · rw [add_node_edges] at h'
        exact Or.inl h'
      · exact Or.inr ⟨recordName pw, by simp, h'⟩
    · exact Or.inr ⟨n, by simp only [List.map_cons, List.mem_cons]; exact Or.inr hn, rfl⟩

theorem edge_complete_build_loop (pws : List PathwayJson) (a : String) (g : Graph)
    (hfst : ∀ e ∈ g.edges, e.1 = a) :
    ∀ n ∈ pws.map recordName, (a, n) ∈ (build_loop a g pws).edges := by
  induction pws generalizing g with
  | nil => intro n hn; simp at hn
  | cons pw t ih =>
    intro n hn
    simp only [List.map_cons, List.mem_cons] at hn
    have hfst' : ∀ e ∈ (add_edge (add_node g (recordName pw) "blue") a (recordName pw)).edges,
        e.1 = a := by
      intro e he
      rcases mem_edges_add_edge _ _ _ _ he with h | h
      · rw [add_node_edges] at h
        exact hfst _ h
      · rw [h]
    rcases hn with rfl | hn
    · rw [build_loop]
      apply edges_build_loop_sub
      apply self_mem_edges_add_edge
      intro e he
      rw [add_node_edges] at he
      exact hfst _ he
    · rw [build_loop]
      exact ih _ hfst' n hn

theorem nodup_edges_build_loop (pws : List PathwayJson) (a : String) (g : Graph)
    (h : g.edges.Nodup) : (build_loop a g pws).edges.Nodup := by
  induction pws generalizing g with
  | nil => exact h
  | cons pw t ih =>
    rw [build_loop]
    apply ih
    apply nodup_edges_add_edge
    rw [add_node_edges]
    exact h

theorem init_nodeIds (a : String) : nodeIds (add_node ⟨[], []⟩ a "red") = [a] := by
  simp [add_node, nodeIds]

theorem init_edges (a : String) : (add_node ⟨[], []⟩ a "red").edges = [] := by
  rw [add_node_edges]

theorem mem_nodeIds_iff (g : Graph) (x : String) :
    x ∈ nodeIds g ↔ ∃ p ∈ g.nodes, p.1 = x := by
  unfold nodeIds
  simp [List.mem_map]

theorem fst_inj_of_nodup (l : List (String × String))
    (h : (l.map Prod.fst).Nodup) :
    ∀ p q : String × String, p ∈ l → q ∈ l → p.1 = q.1 → p = q := by
  induction l with
  | nil =>
    intro p q hp _ _
    exact absurd hp (List.not_mem_nil p)
  | cons x t ih =>
    intro p q hp hq hpq
    simp only [List.map_cons, List.nodup_cons] at h
    obtain ⟨hx, ht⟩ := h
    simp only [List.mem_cons] at hp hq
    rcases hp with rfl | hp
    · rcases hq with rfl | hq
      · rfl
      · have : p.1 ∈ t.map Prod.fst := by
          rw [hpq]
          exact List.mem_map_of_mem Prod.fst hq
        exact absurd this hx
    · rcases hq with rfl | hq
      · have : q.1 ∈ t.map Prod.fst := by
          rw [← hpq]
          exact List.mem_map_of_mem Prod.fst hp
        exact absurd this hx
      · exact ih ht p q hp hq hpq

theorem colors_add_node (g : Graph) (a n : String) (hn : n ≠ a)
    (hcol : ∀ p ∈ g.nodes, p.2 = if p.1 = a then "red" else "blue") :
    ∀ p ∈ (add_node g n "blue").nodes, p.2 = if p.1 = a then "red" else "blue" := by
  unfold add_node
  split
  · intro p hp
    simp only [List.mem_map] at hp
    obtain ⟨q, hq, hqe⟩ := hp
    by_cases hq1 : q.1 = n
    · rw [if_pos hq1] at hqe
      rw [← hqe]
      show "blue" = if q.1 = a then "red" else "blue"
      rw [if_neg (by rw [hq1]; exact hn)]
    · rw [if_neg hq1] at hqe
      rw [← hqe]
      exact hcol q hq
  · intro p hp
    rcases List.mem_append.mp hp with h' | h'
    · exact hcol p h'
    · simp only [List.mem_singleton] at h'
      rw [h']
      show "blue" = if n = a then "red" else "blue"
      rw [if_neg hn]

theorem colors_build_loop (pws : List PathwayJson) (a : String) (g : Graph)
    (hname : ∀ pw ∈ pws, recordName pw ≠ a)
    (hcol : ∀ p ∈ g.nodes, p.2 = if p.1 = a then "red" else "blue") :
    ∀ p ∈ (build_loop a g pws).nodes, p.2 = if p.1 = a then "red" else "blue" := by
  induction pws generalizing g with
  | nil => exact hcol
  | cons pw t ih =>
    rw [build_loop]
    apply ih
    · intro pw' h'
      exact hname pw' (List.mem_cons_of_mem _ h')
    · intro p hp
      rw [add_edge_nodes] at hp
      exact colors_add_node g a (recordName pw) (hname pw (List.mem_cons_self _ _))
        hcol p hp

theorem resolve_protein_eq (input : String) (fetch : Option (List (String × String))) :
    resolve input .protein fetch = .ok ⟨input, .UserProvided⟩ := rfl

theorem resolve_hmdb_eq (input : String) (fetch : Option (List (String × String)))
    (h : pyStartsWith (pyLower input) "hmdb" = true) :
    resolve input .metabolite fetch = .ok ⟨input, .UserProvided⟩ := by
  simp [resolve, h]

theorem query_ramp_api_fail (aid : String) (ty : AnalyteType)
    (http : Option (Nat × Json)) (h : httpOk http = false) :
    query_ramp_api aid ty http = Json.other := by
  cases http with
  | none => rfl
  | some p =>
    obtain ⟨s, b⟩ := p
    have h' : (s == 200) = false := h
    simp [query_ramp_api, h']

theorem handle_ok_eq (input cid : String) (src : Source) (kind : AnalyteType)
    (fetch : Option (List (String × String))) (http : Option (Nat × Json))
    (h1 : input ≠ "") (h2 : resolve input kind fetch = .ok ⟨cid, src⟩) :
    handle input kind fetch http =
      match query_ramp_api cid kind http with
      | Json.arr (x :: xs) =>
          .success cid (x :: xs)
            (generate_network_graph cid (x :: xs))
            (save_results_pdf_text (x :: xs))
      | _ => .noPathways := by
  unfold handle
  rw [if_neg h1, h2]

theorem foldl_append_join (l : List String) (init : String) :
    List.foldl (fun a s => a ++ s) init l = init ++ String.join l := by
  induction l generalizing init with
  | nil =>
    rw [List.foldl_nil]
    rw [show String.join [] = "" from rfl, String.append_empty]
  | cons s t ih =>
    rw [List.foldl_cons, ih]
    have hj : String.join (s :: t) = s ++ String.join t := by
      have h1 : String.join (s :: t) = List.foldl (fun a b => a ++ b) s t := by
        show List.foldl (fun a b => a ++ b) "" (s :: t) = _
        rw [List.foldl_cons, String.empty_append]
      rw [h1, ih]
    rw [hj, String.append_assoc]

theorem pdfLine_append_newline (pw : PathwayJson) :
    pdfLine pw ++ "\n"
      = "- " ++ recordName pw ++ " (Source: " ++ sourceName pw ++ ")\n" := by
  unfold pdfLine
  rw [String.append_assoc]
  rw [show (")" : String) ++ "\n" = ")\n" by decide]

theorem round4_nonneg (q : ℚ) (h : 0 ≤ q) : 0 ≤ round4 q := by
  unfold round4
  apply div_nonneg _ (by norm_num : (0 : ℚ) ≤ 10000)
  have hz : (0 : ℤ) ≤ ⌊q * 10000 + 1 / 2⌋ := by
    apply Int.le_floor.mpr
    push_cast
    nlinarith
  exact_mod_cast hz

theorem round4_le_one (q : ℚ) (h : q ≤ 1) : round4 q ≤ 1 := by
  unfold round4
  rw [div_le_one (by norm_num : (0 : ℚ) < 10000)]
  have hf : ⌊q * 10000 + 1 / 2⌋ ≤ 10000 := by
    have h2 : q * 10000 + 1 / 2 ≤ (10000 : ℚ) + 1 / 2 := by nlinarith
    calc ⌊q * 10000 + 1 / 2⌋ ≤ ⌊(10000 : ℚ) + 1 / 2⌋ := Int.floor_le_floor h2
      _ = 10000 := by norm_num
  exact_mod_cast hf

/-- **C1 (amended).** For declared kind Metabolite, a raw input that does not
begin with the HMDB prefix (case-insensitively) and whose case-insensitive
lookup in the name-mapping table fails makes `resolve` fail with
`UnresolvedIdentifier`, and the pipeline stops without reaching the pathway
query.  The original claim asserted this for Protein as well; for Protein the
code performs no lexical check and no table lookup, passing every input
through to the query (see the counterexample). -/
theorem unresolved_name_stops_pipeline (input : String)
    (fetch : Option (List (String × String))) (http : Option (Nat × Json))
    (h1 : input ≠ "")
    (h2 : pyStartsWith (pyLower input) "hmdb" = false)
    (h3 : map_common_name_to_hmdb fetch input = none) :
    resolve input .metabolite fetch = .error .UnresolvedIdentifier ∧
    handle input .metabolite fetch http = .mappingFailed := by
  have hres : resolve input .metabolite fetch = .error .UnresolvedIdentifier := by
    simp [resolve, h2, h3]
  refine ⟨hres, ?_⟩
  unfold handle
  rw [if_neg h1, hres]

theorem unresolved_name_stops_pipeline_witness :
    resolve "glucose" .metabolite (some [("Pyruvate", "HMDB0000243")])
        = .error .UnresolvedIdentifier ∧
    handle "glucose" .metabolite (some [("Pyruvate", "HMDB0000243")]) none
        = .mappingFailed :=
  unresolved_name_stops_pipeline "glucose" (some [("Pyruvate", "HMDB0000243")]) none
    (by decide) (by decide) (by decide)

/-- **C1 (counterexample).** The input "hello world" matches no canonical
protein-identifier form and is absent from the (empty) name-mapping table,
yet for declared kind Protein `resolve` does not fail with
`UnresolvedIdentifier` — it passes the input through — and the pipeline
proceeds to the pathway query. -/
theorem protein_bypasses_resolution_cex :
    resolve "hello world" .protein (some []) ≠ .error .UnresolvedIdentifier ∧
    proceeds (handle "hello world" .protein (some [])
        (some (200, Json.arr [⟨some "Apoptosis", some "kegg"⟩]))) = true :=
  ⟨by decide, by decide⟩

/-- **C2 (amended).** On a network failure or a non-200 response,
`query_ramp_api` returns the empty-object fallback (`Json.other`, modelling
the literal `{}` of main.py line 44) — not a distinct QueryUnavailable
error — and the handler then surfaces exactly the same "No pathways found"
empty state as for a well-formed empty-list response: endpoint failure is not
distinguishable by the caller from EmptyResult.  (A single endpoint is used;
there is no ordered candidate list.) -/
theorem query_failure_surfaces_empty_state (analyte_id input : String)
    (t : AnalyteType) (fetch : Option (List (String × String)))
    (http : Option (Nat × Json))
    (h1 : httpOk http = false) (h2 : input ≠ "") :
    query_ramp_api analyte_id t http = Json.other ∧
    handle input .protein fetch http = .noPathways ∧
    handle input .protein fetch (some (200, Json.arr [])) = .noPathways := by
  refine ⟨query_ramp_api_fail _ _ _ h1, ?_, ?_⟩
  · rw [handle_ok_eq input input .UserProvided .protein fetch http h2
      (resolve_protein_eq input fetch)]
    rw [query_ramp_api_fail _ _ _ h1]
  · rw [handle_ok_eq input input .UserProvided .protein fetch
      (some (200, Json.arr [])) h2 (resolve_protein_eq input fetch)]
    rfl

theorem query_failure_surfaces_empty_state_witness :
    query_ramp_api "P04637" .protein none = Json.other ∧
    handle "P04637" .protein none none = .noPathways ∧
    handle "P04637" .protein none (some (200, Json.arr [])) = .noPathways :=
  query_failure_surfaces_empty_state "P04637" "P04637" .protein none none
    (by decide) (by decide)

/-- **C2 (counterexample).** At concrete inputs the failure path is
observationally identical to the empty-result path: the client returns the
same value for a raised request as for a 200 response whose body is not a
list, and the handler produces the same outcome for a raised request as for
a 200 empty-list response.  No distinct QueryUnavailable error exists in the
code. -/
theorem query_failure_indistinguishable_cex :
    query_ramp_api "P04637" .protein none
        = query_ramp_api "P04637" .protein (some (200, Json.other)) ∧
    handle "P04637" .protein none none
        = handle "P04637" .protein none (some (200, Json.arr [])) :=
  ⟨by decide, by decide⟩

/-- **C7.** A raw input that lexically matches the canonical form for its
declared kind is returned unchanged with source UserProvided: every Protein
input is passed through verbatim (the code applies no protein lexical filter,
so in particular all canonically-shaped ones are), and every Metabolite input
beginning with the HMDB prefix (case-insensitively) is passed through
verbatim. -/
theorem canonical_input_passthrough (input : String)
    (fetch : Option (List (String × String))) :
    resolve input .protein fetch = .ok ⟨input, .UserProvided⟩ ∧
    (pyStartsWith (pyLower input) "hmdb" = true →
      resolve input .metabolite fetch = .ok ⟨input, .UserProvided⟩) :=
  ⟨resolve_protein_eq input fetch, fun h => resolve_hmdb_eq input fetch h⟩

theorem canonical_input_passthrough_witness :
    resolve "HMDB0000122" .metabolite none = .ok ⟨"HMDB0000122", .UserProvided⟩ :=
  (canonical_input_passthrough "HMDB0000122" none).2 (by decide)

/-- **C10.** With a non-empty input (resolution passing the input through),
the pipeline reaches the success branch — building the graph and the export
artifacts — exactly when the query result is a JSON list of length greater
than zero; any other successful response shape, e.g. a 200 response carrying
a JSON object, is surfaced as the "No pathways found" empty state with no
graph or files produced. -/
theorem pipeline_gates_on_nonempty_list (input : String)
    (fetch : Option (List (String × String))) (http : Option (Nat × Json))
    (h : input ≠ "") :
    (proceeds (handle input .protein fetch http) = true ↔
      ∃ x xs, query_ramp_api input .protein http = Json.arr (x :: xs)) ∧
    handle input .protein fetch (some (200, Json.other)) = .noPathways := by
  refine ⟨?_, ?_⟩
  · rw [handle_ok_eq input input .UserProvided .protein fetch http h
      (resolve_protein_eq input fetch)]
    cases hq : query_ramp_api input .protein http with
    | arr entries =>
      cases entries with
      | nil => simp [proceeds]
      | cons x xs =>
        constructor
        · intro _
          exact ⟨x, xs, rfl⟩
        · intro _
          rfl
    | other => simp [proceeds]
  · rw [handle_ok_eq input input .UserProvided .protein fetch
      (some (200, Json.other)) h (resolve_protein_eq input fetch)]
    rfl

theorem pipeline_gates_on_nonempty_list_witness :
    proceeds (handle "P04637" .protein none
        (some (200, Json.arr [⟨some "Apoptosis", some "kegg"⟩]))) = true :=
  ((pipeline_gates_on_nonempty_list "P04637" none
      (some (200, Json.arr [⟨some "Apoptosis", some "kegg"⟩])) (by decide)).1).mpr
    ⟨⟨some "Apoptosis", some "kegg"⟩, [], rfl⟩

/-- **C3 (amended).** The spec-modelled Enrichment Scorer assigns
`round4 (1 / (1 + |associated_analytes|))`: a record with 0 associated
analytes scores 1, with 1 scores 1/2, with 3 scores 1/4; every score lies in
[0, 1], and the sequence form is length-preserving.  The original bound
(0, 1] fails: rounding to 4 decimal digits sends sufficiently small scores to
exactly 0 (see the counterexample). -/
theorem enrichment_score_values_and_bounds :
    (∀ r : PathwayRecord, r.associated_analytes.length = 0 → scoreOne r = 1) ∧
    (∀ r : PathwayRecord, r.associated_analytes.length = 1 → scoreOne r = 1 / 2) ∧
    (∀ r : PathwayRecord, r.associated_analytes.length = 3 → scoreOne r = 1 / 4) ∧
    (∀ r : PathwayRecord, 0 ≤ scoreOne r ∧ scoreOne r ≤ 1) ∧
    (∀ records : List PathwayRecord, (score records).length = records.length) := by
  refine ⟨?_, ?_, ?_, ?_, ?_⟩
  · intro r h
    unfold scoreOne round4
    rw [h]
    norm_num
  · intro r h
    unfold scoreOne round4
    rw [h]
    norm_num
  · intro r h
    unfold scoreOne round4
    rw [h]
    norm_num
  · intro r
    have h0 : (0 : ℚ) < 1 + (r.associated_analytes.length : ℚ) := by positivity
    have hq0 : 0 ≤ 1 / (1 + (r.associated_analytes.length : ℚ)) := by positivity
    have hq1 : 1 / (1 + (r.associated_analytes.length : ℚ)) ≤ 1 := by
      rw [div_le_one h0]
      have := Nat.cast_nonneg (α := ℚ) r.associated_analytes.length
      linarith
    exact ⟨round4_nonneg _ hq0, round4_le_one _ hq1⟩
  · intro records
    unfold score
    rw [List.length_map]

theorem enrichment_score_values_and_bounds_witness :
    scoreOne ⟨"Glycolysis", "kegg", []⟩ = 1 ∧
    scoreOne ⟨"Glycolysis", "kegg", ["a"]⟩ = 1 / 2 ∧
    scoreOne ⟨"Glycolysis", "kegg", ["a", "b", "c"]⟩ = 1 / 4 :=
  ⟨enrichment_score_values_and_bounds.1 ⟨"Glycolysis", "kegg", []⟩ rfl,
   enrichment_score_values_and_bounds.2.1 ⟨"Glycolysis", "kegg", ["a"]⟩ rfl,
   enrichment_score_values_and_bounds.2.2.1 ⟨"Glycolysis", "kegg", ["a", "b", "c"]⟩ rfl⟩

/-- **C3 (counterexample).** A record with 20000 associated analytes has raw
score 1/20001, which rounds to 4 decimal digits as exactly 0 — and 0 does not
lie in (0, 1], so the claimed range fails. -/
theorem enrichment_score_rounds_to_zero_cex :
    scoreOne ⟨"Huge", "db", List.replicate 20000 "x"⟩ = 0 ∧
    ¬ (0 < scoreOne ⟨"Huge", "db", List.replicate 20000 "x"⟩) := by
  have h : scoreOne ⟨"Huge", "db", List.replicate 20000 "x"⟩ = 0 := by
    unfold scoreOne round4
    rw [List.length_replicate]
    norm_num
  exact ⟨h, by rw [h]; norm_num⟩

/-- **C4 (amended).** The text inserted into the exported document consists of
the header followed by exactly one plain-text line per row; each line has the
form dash, pathway name, then the source database in parentheses — i.e.
"- <pathway> (Source: <source>)" — not the claimed "<pathway> (Score:
<score>)": the code prints the source field and computes no score (see the
counterexample). -/
theorem pdf_one_line_per_row (pws : List PathwayJson) :
    save_results_pdf_text pws
      = "Pathway Results:\n\n" ++ String.join (pws.map (fun pw => pdfLine pw ++ "\n")) ∧
    (pws.map pdfLine).length = pws.length := by
  constructor
  · have hfun : (fun (text : String) (pw : PathwayJson) =>
        text ++ ("- " ++ recordName pw ++ " (Source: " ++ sourceName pw ++ ")\n"))
        = fun (text : String) (pw : PathwayJson) => text ++ (pdfLine pw ++ "\n") := by
      funext text pw
      rw [pdfLine_append_newline]
    unfold save_results_pdf_text
    rw [hfun]
    rw [← List.foldl_map (fun pw => pdfLine pw ++ "\n") (fun a s => a ++ s)]
    exact foldl_append_join _ _
  · exact List.length_map _ _

/-- **C4 (counterexample).** For a concrete row the document line is
"- Glycolysis (Source: kegg)": it carries the source database, and the text
"Score" occurs nowhere in it, so the line is not of the claimed form
"<pathway> (Score: <score>)". -/
theorem pdf_line_has_source_not_score_cex :
    save_results_pdf_text [⟨some "Glycolysis", some "kegg"⟩]
      = "Pathway Results:\n\n- Glycolysis (Source: kegg)\n" ∧
    ¬ ("Score".data <:+: "- Glycolysis (Source: kegg)".data) :=
  ⟨by decide, by decide⟩

/-- **C5 (amended).** Provided no defaulted pathway name equals the analyte
id, the graph built by `generate_network_graph` satisfies the
AnalytePathwayGraph invariant: exactly one Analyte (red) node, and every edge
joins the analyte node to a distinct Pathway (blue) node, so no edge joins
two Pathway nodes.  The original unconditional claim fails when a pathway
name collides with the analyte id (see the counterexample). -/
theorem graph_star_invariant (a : String) (pws : List PathwayJson)
    (h : ∀ pw ∈ pws, recordName pw ≠ a) :
    graphInvariant (generate_network_graph a pws) a := by
  have hname : ∀ n ∈ pws.map recordName, n ≠ a := by
    intro n hn
    obtain ⟨pw, hpw, rfl⟩ := List.mem_map.mp hn
    exact h pw hpw
  have hcol : ∀ p ∈ (generate_network_graph a pws).nodes,
      p.2 = if p.1 = a then "red" else "blue" := by
    unfold generate_network_graph
    apply colors_build_loop _ _ _ h
    intro p hp
    have hinit : (add_node ⟨[], []⟩ a "red").nodes = [(a, "red")] := by
      simp [add_node]
    rw [hinit] at hp
    simp only [List.mem_singleton] at hp
    rw [hp]
    show "red" = if a = a then "red" else "blue"
    rw [if_pos rfl]
  have hnodup : (nodeIds (generate_network_graph a pws)).Nodup := by
    unfold generate_network_graph
    apply nodup_nodeIds_build_loop
    rw [init_nodeIds]
    exact List.nodup_singleton a
  have hmem : a ∈ nodeIds (generate_network_graph a pws) := by
    unfold generate_network_graph
    rw [mem_nodeIds_build_loop]
    left
    rw [init_nodeIds]
    exact List.mem_singleton.mpr rfl
  constructor
  · obtain ⟨p, hp, hp1⟩ := (mem_nodeIds_iff _ _).mp hmem
    refine ⟨p, hp, ?_, hp1, ?_⟩
    · have hc := hcol p hp
      rw [if_pos hp1] at hc
      exact hc
    · intro q hq hqred
      have hq1 : q.1 = a := by
        by_contra hne
        have hc := hcol q hq
        rw [if_neg hne] at hc
        rw [hc] at hqred
        exact absurd hqred (by decide)
      exact fst_inj_of_nodup _ hnodup q p hq hp (by rw [hq1, hp1])
  · intro e he
    unfold generate_network_graph at he
    rcases mem_edges_build_loop _ _ _ _ he with h' | ⟨n, hn, rfl⟩
    · rw [init_edges] at h'
      exact absurd h' (List.not_mem_nil e)
    · refine ⟨rfl, hname n hn, ?_⟩
      have hnmem : n ∈ nodeIds (generate_network_graph a pws) := by
        unfold generate_network_graph
        rw [mem_nodeIds_build_loop]
        right
        exact hn
      obtain ⟨p, hp, hp1⟩ := (mem_nodeIds_iff _ _).mp hnmem
      have hc := hcol p hp
      rw [if_neg (by rw [hp1]; exact hname n hn)] at hc
      have hpn : p = (n, "blue") := by
        obtain ⟨p1, p2⟩ := p
        simp only at hp1 hc
        rw [hp1, hc]
      rw [← hpn]
      exact hp

theorem graph_star_invariant_witness :
    graphInvariant (generate_network_graph "P04637" [⟨some "Apoptosis", none⟩])
      "P04637" :=
  graph_star_invariant "P04637" [⟨some "Apoptosis", none⟩] (by decide)

/-- **C5 (counterexample).** With analyte id "A" and one pathway also named
"A", re-adding the node recolors it blue and the single edge is a self-loop:
the graph has no red (Analyte) node at all, so the claimed invariant fails
unconditionally quantified. -/
theorem graph_star_invariant_collision_cex :
    ¬ graphInvariant (generate_network_graph "A" [⟨some "A", none⟩]) "A" := by
  decide

/-- **C6 (amended).** `generate_network_graph` deduplicates: node ids are
pairwise distinct and edges are pairwise distinct for every input; and two
entries sharing one name distinct from the analyte id yield exactly 2 nodes
and 1 edge.  If the shared name equals the analyte id, the analyte node is
reused instead: 1 node and a single self-loop edge (see the counterexample). -/
theorem graph_dedup (a n : String) (pws : List PathwayJson) :
    (nodeIds (generate_network_graph a pws)).Nodup ∧
    (generate_network_graph a pws).edges.Nodup ∧
    (n ≠ a →
      (generate_network_graph a [⟨some n, none⟩, ⟨some n, none⟩]).nodes.length = 2 ∧
      (generate_network_graph a [⟨some n, none⟩, ⟨some n, none⟩]).edges.length = 1) := by
  refine ⟨?_, ?_, ?_⟩
  · unfold generate_network_graph
    apply nodup_nodeIds_build_loop
    rw [init_nodeIds]
    exact List.nodup_singleton a
  · unfold generate_network_graph
    apply nodup_edges_build_loop
    rw [init_edges]
    exact List.nodup_nil
  · intro hna
    have han : a ≠ n := fun h' => hna h'.symm
    have h0 : add_node ⟨[], []⟩ a "red" = ⟨[(a, "red")], []⟩ := by
      simp [add_node]
    have h1 : add_node ⟨[(a, "red")], []⟩ n "blue" = ⟨[(a, "red"), (n, "blue")], []⟩ := by
      unfold add_node
      simp [hna]
    have h2 : add_edge ⟨[(a, "red"), (n, "blue")], []⟩ a n
        = ⟨[(a, "red"), (n, "blue")], [(a, n)]⟩ := by
      unfold add_edge
      simp
    have h3 : add_node ⟨[(a, "red"), (n, "blue")], [(a, n)]⟩ n "blue"
        = ⟨[(a, "red"), (n, "blue")], [(a, n)]⟩ := by
      unfold add_node
      simp [han]
    have h4 : add_edge ⟨[(a, "red"), (n, "blue")], [(a, n)]⟩ a n
        = ⟨[(a, "red"), (n, "blue")], [(a, n)]⟩ := by
      unfold add_edge
      simp
    have hG : generate_network_graph a [⟨some n, none⟩, ⟨some n, none⟩]
        = ⟨[(a, "red"), (n, "blue")], [(a, n)]⟩ := by
      unfold generate_network_graph
      rw [build_loop, build_loop, build_loop]
      rw [show recordName ⟨some n, none⟩ = n from rfl]
      rw [h0, h1, h2, h3, h4]
    rw [hG]
    exact ⟨rfl, rfl⟩

theorem graph_dedup_witness :
    (generate_network_graph "A" [⟨some "Pth", none⟩, ⟨some "Pth", none⟩]).nodes.length
        = 2 ∧
    (generate_network_graph "A" [⟨some "Pth", none⟩, ⟨some "Pth", none⟩]).edges.length
        = 1 :=
  (graph_dedup "A" "Pth" []).2.2 (by decide)

/-- **C6 (counterexample).** Two enriched pathways sharing the name "A" when
the analyte id is also "A" yield a single node (not the claimed 2) with one
self-loop edge. -/
theorem graph_dedup_collision_cex :
    (generate_network_graph "A" [⟨some "A", none⟩, ⟨some "A", none⟩]).nodes.length = 1 ∧
    (generate_network_graph "A" [⟨some "A", none⟩, ⟨some "A", none⟩]).nodes.length ≠ 2 ∧
    (generate_network_graph "A" [⟨some "A", none⟩, ⟨some "A", none⟩]).edges
        = [("A", "A")] := by
  refine ⟨by decide, by decide, by decide⟩

/-- **C8.** Each raw response entry yields exactly one record: the defaulted
name sequence is length-preserving over the raw response, an entry with a
missing name field is assigned the sentinel "Unknown" rather than dropped,
and every entry — including sentinel-named ones — contributes its node and
edge to the graph. -/
theorem records_one_per_entry (a : String) (pws : List PathwayJson) :
    (pathwayNames pws).length = pws.length ∧
    (∀ s : Option String, recordName ⟨none, s⟩ = "Unknown") ∧
    (∀ pw ∈ pws, recordName pw ∈ nodeIds (generate_network_graph a pws) ∧
      (a, recordName pw) ∈ (generate_network_graph a pws).edges) := by
  refine ⟨by simp [pathwayNames], fun s => rfl, fun pw hpw => ⟨?_, ?_⟩⟩
  · unfold generate_network_graph
    rw [mem_nodeIds_build_loop]
    right
    exact List.mem_map_of_mem _ hpw
  · unfold generate_network_graph
    apply edge_complete_build_loop
    · intro e he
      rw [init_edges] at he
      exact absurd he (List.not_mem_nil e)
    · exact List.mem_map_of_mem _ hpw

theorem records_one_per_entry_witness :
    recordName ⟨none, none⟩ = "Unknown" ∧
    ("A", "Unknown") ∈ (generate_network_graph "A" [⟨none, none⟩]).edges :=
  ⟨(records_one_per_entry "A" [⟨none, none⟩]).2.1 none,
   ((records_one_per_entry "A" [⟨none, none⟩]).2.2 ⟨none, none⟩ (by decide)).2⟩

/-- **C9.** The node-id set of the built graph is exactly the analyte id
together with the defaulted names of the entries; every edge runs from the
analyte id to some defaulted name; and when some defaulted name equals the
analyte id itself, no separate node exists for it and the graph contains the
self-loop edge from the analyte to itself — so the single-analyte-node shape
can only hold when no name collides with the analyte id. -/
theorem graph_node_set_exact (a : String) (pws : List PathwayJson) :
    (∀ x, x ∈ nodeIds (generate_network_graph a pws) ↔
      x = a ∨ x ∈ pws.map recordName) ∧
    (∀ e ∈ (generate_network_graph a pws).edges,
      e.1 = a ∧ e.2 ∈ pws.map recordName) ∧
    (a ∈ pws.map recordName → (a, a) ∈ (generate_network_graph a pws).edges) := by
  refine ⟨?_, ?_, ?_⟩
  · intro x
    unfold generate_network_graph
    rw [mem_nodeIds_build_loop, init_nodeIds]
    simp
  · intro e he
    unfold generate_network_graph at he
    rcases mem_edges_build_loop _ _ _ _ he with h' | ⟨n, hn, rfl⟩
    · rw [init_edges] at h'
      exact absurd h' (List.not_mem_nil e)
    · exact ⟨rfl, hn⟩
  · intro ha
    unfold generate_network_graph
    apply edge_complete_build_loop
    · intro e he
      rw [init_edges] at he
      exact absurd he (List.not_mem_nil e)
    · exact ha

theorem graph_node_set_exact_witness :
    ("A", "A") ∈ (generate_network_graph "A" [⟨some "A", none⟩]).edges ∧
    (("A", "A").1 = "A" ∧ ("A", "A").2 ∈ [(⟨some "A", none⟩ : PathwayJson)].map recordName) :=
  ⟨(graph_node_set_exact "A" [⟨some "A", none⟩]).2.2 (by decide),
   (graph_node_set_exact "A" [⟨some "A", none⟩]).2.1 ("A", "A") (by decide)⟩

end MultiOmic
